import Mathlib

/-!
Verification of `handler.py` from the pull-requests-notifier repository.

The Python source is shallowly embedded below:

* `load_params` models the SSM parameter-store loader (handler.py lines 9-31).
  The external store is modelled as the list of pages it serves to the
  successive `get_parameters_by_path` calls.
* `check_open_pull_requests` models the Lambda handler (lines 34-200).
  Network effects are made explicit: the GitHub GraphQL response is an input,
  and the webhook POSTs performed are returned as data.  The Python function
  can terminate in three distinct ways (`return` = None, `return {}`,
  `return message`), captured by `HandlerResult`; an uncaught `KeyError`
  raised by the review tally (line 161) is captured by `Except Err`.
* Timestamps: `createdAt` is parsed with `strptime('%Y-%m-%dT%H:%M:%SZ')` and
  subtracted from `utcnow()`; both datetimes are modelled by their value in
  seconds on the timeline, so the subtraction yields the total seconds of the
  `timedelta`.  Python normalises a timedelta as `days = total // 86400`,
  `seconds = total % 86400` (floor division); for the positive divisor 86400
  this agrees with `Int` division `/` and `%` here.
-/

namespace PRNotifier

/-- Concatenation of a list of strings, mirroring repeated `+=` in Python. -/
def strJoin : List String → String
  | [] => ""
  | s :: rest => s ++ strJoin rest

/-- Python's substring test `needle in hay` on strings. -/
def strIn (needle hay : String) : Bool :=
  hay.data.tails.any (fun t => needle.data.isPrefixOf t)

/-! ### Configuration loader: `load_params` (handler.py lines 9-31) -/

/-- One parameter returned by `get_parameters_by_path`. -/
structure SsmParam where
  name : String
  value : String
deriving DecidableEq

/-- One page of the paginated `get_parameters_by_path` response.
`nextToken` is the optional `NextToken` field. -/
structure SsmPage where
  parameters : List SsmParam
  nextToken : Option String
deriving DecidableEq

/-- Split a character list at every occurrence of `sep`, keeping empty pieces:
the semantics of Python's `str.split(sep)` for a one-character separator. -/
def splitChar (sep : Char) : List Char → List (List Char)
  | [] => [[]]
  | c :: rest =>
      if c = sep then [] :: splitChar sep rest
      else
        match splitChar sep rest with
        | [] => [[c]]
        | s :: ss => (c :: s) :: ss

/-- `param['Name'].split('/')[3]` (handler.py line 28).  Python raises
`IndexError` when the name has fewer than four slash-delimited segments;
this is modelled by `none`. -/
def keyOfName (n : String) : Option String :=
  ((splitChar '/' n.data).map String.mk)[3]?

/-- Python `dict` assignment `config[key] = value`: an existing key is
updated in place, a new key is appended (insertion order preserved). -/
def insertParam (cfg : List (String × String)) (k v : String) :
    List (String × String) :=
  if cfg.any (fun p => p.1 = k) then
    cfg.map (fun p => if p.1 = k then (k, v) else p)
  else cfg ++ [(k, v)]

/-- The `for param in params['Parameters']` body (handler.py lines 27-29). -/
def storeParams (cfg : List (String × String)) :
    List SsmParam → Option (List (String × String))
  | [] => some cfg
  | p :: rest =>
      match keyOfName p.name with
      | none => none
      | some k => storeParams (insertParam cfg k p.value) rest

/-- The `while more is not False` loop (handler.py lines 23-30).  The store
serves `pages` to the successive calls; the loop stops after the first page
carrying no `NextToken`.  `none` models the failure modes absent from the
claims: a short name (IndexError) or the store being exhausted while a token
is still pending. -/
def loadLoop (cfg : List (String × String)) :
    List SsmPage → Option (List (String × String))
  | [] => none
  | page :: rest =>
      match storeParams cfg page.parameters with
      | none => none
      | some cfg2 =>
          match page.nextToken with
          | none => some cfg2
          | some _ => loadLoop cfg2 rest

/-- `load_params` (handler.py lines 9-31), as a function of the page sequence
the parameter store serves. -/
def load_params (pages : List SsmPage) : Option (List (String × String)) :=
  loadLoop [] pages

/-- Spec-side description: the union of one page's key-value pairs. -/
def pageUnion (cfg : List (String × String)) (ps : List SsmParam) :
    List (String × String) :=
  ps.foldl (fun c p => insertParam c ((keyOfName p.name).getD "") p.value) cfg

/-- Spec-side description: the union of all pages' key-value pairs, each key
being the fourth slash-delimited segment of the parameter's full path. -/
def allPagesUnion (pages : List SsmPage) : List (String × String) :=
  pages.foldl (fun c pg => pageUnion c pg.parameters) []

/-! ### GraphQL result data model (the fields the handler reads) -/

structure Author where
  login : String
deriving DecidableEq

structure Repo where
  name : String
deriving DecidableEq

/-- One node of `reviews.edges`. -/
structure ReviewNode where
  author : Author
  state : String
deriving DecidableEq

structure Reviews where
  totalCount : Nat
  edges : List ReviewNode
deriving DecidableEq

structure ReviewRequests where
  totalCount : Nat
deriving DecidableEq

/-- One pull request node of the search result.  `createdAt` is the parsed
timestamp, in seconds on the datetime timeline (see module comment).
The queried `assignees` data is never read by the handler and is omitted. -/
structure PullRequest where
  url : String
  title : String
  createdAt : Int
  author : Author
  repository : Repo
  reviewRequests : ReviewRequests
  reviews : Reviews
deriving DecidableEq

structure SearchData where
  edges : List PullRequest
deriving DecidableEq

/-- The GraphQL HTTP response.  `dataNode = none` models
`not data or not data.get('data')` (handler.py line 113). -/
structure GithubResponse where
  status : Nat
  dataNode : Option SearchData
deriving DecidableEq

/-- The configuration keys the handler reads.  `pr_skip_repositories` is a
single string value when present in the store (handler.py line 100); when
absent the Python code uses the empty tuple `()`. -/
structure Config where
  github_access_token : String
  github_organization : String
  slack_access_token : String
  slack_webhook_url : String
  pr_skip_repositories : Option String
deriving DecidableEq

/-- `repository_name in skip_repositories` (handler.py line 124): substring
containment when the configured value is a string, always false against the
default empty tuple. -/
def skippedB (skip : Option String) (name : String) : Bool :=
  match skip with
  | some s => strIn name s
  | none => false

/-! ### Elapsed-time rendering (handler.py lines 127-145) -/

/-- `time_since_created` as a function of the timedelta's total seconds
`diff = now - created`.  Python: `time_diff.days = diff // 86400`,
`time_diff.seconds = diff % 86400`; `int(x / 3600)` and `int(x / 60)` on the
non-negative seconds field are floor divisions. -/
def timeSinceCreated (diff : Int) : String :=
  let days : Int := diff / 86400
  if days ≠ 0 then
    let base := toString days ++ " day" ++ (if days = 1 then "" else "s") ++ " ago"
    if 3 < days ∧ days < 6 then base ++ " :warning:"
    else if 6 ≤ days then base ++ " :fire:"
    else base
  else
    let secs : Nat := (diff % 86400).toNat
    let dueHours := secs / 3600
    if dueHours ≠ 0 then
      toString dueHours ++ " hour" ++ (if dueHours = 1 then "" else "s") ++ " ago"
    else
      let minutesAgo := secs / 60
      toString minutesAgo ++ " minute" ++ (if minutesAgo = 1 then "" else "s") ++ " ago"

/-! ### Review tally (handler.py lines 152-164) -/

/-- The fixed five-key `activity` dictionary. -/
structure Activity where
  approved : Nat
  changesRequested : Nat
  commented : Nat
  dismissed : Nat
  pending : Nat
deriving DecidableEq

def zeroActivity : Activity := ⟨0, 0, 0, 0, 0⟩

/-- The error raised by the Python code: `activity[state] += 1` raises
`KeyError(state)` when `state` is not one of the five fixed keys. -/
inductive Err where
  | keyError (k : String)
deriving DecidableEq

instance {ε α : Type} [DecidableEq ε] [DecidableEq α] : DecidableEq (Except ε α) := fun x y =>
  match x, y with
  | .ok a, .ok b =>
      if h : a = b then .isTrue (h ▸ rfl) else .isFalse (fun he => h (Except.ok.inj he))
  | .error a, .error b =>
      if h : a = b then .isTrue (h ▸ rfl) else .isFalse (fun he => h (Except.error.inj he))
  | .ok _, .error _ => .isFalse (fun he => Except.noConfusion he)
  | .error _, .ok _ => .isFalse (fun he => Except.noConfusion he)

def fiveStates : List String :=
  ["APPROVED", "CHANGES_REQUESTED", "COMMENTED", "DISMISSED", "PENDING"]

/-- `activity[review_node['node']['state']] += 1` for one review. -/
def bump (a : Activity) (st : String) : Except Err Activity :=
  if st = "APPROVED" then .ok { a with approved := a.approved + 1 }
  else if st = "CHANGES_REQUESTED" then .ok { a with changesRequested := a.changesRequested + 1 }
  else if st = "COMMENTED" then .ok { a with commented := a.commented + 1 }
  else if st = "DISMISSED" then .ok { a with dismissed := a.dismissed + 1 }
  else if st = "PENDING" then .ok { a with pending := a.pending + 1 }
  else .error (.keyError st)

/-- The `for review_node in pr['reviews']['edges']` loop (lines 160-161). -/
def tally (a : Activity) : List ReviewNode → Except Err Activity
  | [] => .ok a
  | r :: rest =>
      match bump a r.state with
      | .ok a2 => tally a2 rest
      | .error e => .error e

/-- The fixed changes-requested warning line (handler.py line 164). -/
def warningChunk : String :=
  " :changes_requested: Changes requested, completion may take some time.\n"

/-- Lines 159-164: the tally runs only under `pr['reviews']['totalCount'] > 0`,
and the warning chunk is appended exactly when `activity['CHANGES_REQUESTED']`
is non-zero. -/
def actWarn (pr : PullRequest) : Except Err (Activity × List String) :=
  if pr.reviews.totalCount > 0 then
    match tally zeroActivity pr.reviews.edges with
    | .error e => .error e
    | .ok a => .ok (a, if a.changesRequested ≠ 0 then [warningChunk] else [])
  else .ok (zeroActivity, [])

/-- `activity_msg` (handler.py lines 173-181). -/
def activityMsg (a : Activity) : String :=
  (if a.approved ≠ 0 then
    toString a.approved ++ " approval" ++ (if a.approved = 1 then "" else "s")
   else "")
  ++ (if a.commented ≠ 0 then
    ", " ++ toString a.commented ++ " comment" ++ (if a.commented = 1 then "" else "s")
   else "")
  ++ (if a.dismissed ≠ 0 then
    ", " ++ toString a.dismissed ++ " dismissed approval" ++ (if a.dismissed = 1 then "" else "s")
   else "")

/-! ### Per-pull-request digest block (handler.py lines 127-186) -/

/-- The chunks appended to `message` for one non-skipped pull request, in
order of the `message +=` statements of handler.py lines 148-186. -/
def prBlockChunks (now : Int) (pr : PullRequest) : Except Err (List String) :=
  let tsc := timeSinceCreated (now - pr.createdAt)
  match actWarn pr with
  | .error e => .error e
  | .ok (a, warn) =>
      .ok ([" Repository: " ++ pr.repository.name ++ ".",
            " Pull: " ++ pr.title ++ ".\n",
            " URL: " ++ pr.url ++ ".\n"]
        ++ warn
        ++ [" Author: " ++ pr.author.login ++ ". Created: " ++ tsc ++ "\n"]
        ++ (if pr.reviewRequests.totalCount ≠ 0 then
              [" Reviewers: " ++ toString pr.reviewRequests.totalCount ++ " pending.\n"]
            else [" No pending reviewers.\n"])
        ++ (if activityMsg a ≠ "" then
              [" Activity: " ++ activityMsg a ++ ".\n"]
            else [])
        ++ ["\n"])

/-- The `for pr_node in data['data']['search']['edges']` loop
(handler.py lines 119-186), producing the chunks of `message`. -/
def digestChunks (skip : Option String) (now : Int) :
    List PullRequest → Except Err (List String)
  | [] => .ok []
  | pr :: rest =>
      if skippedB skip pr.repository.name then digestChunks skip now rest
      else
        match prBlockChunks now pr with
        | .error e => .error e
        | .ok b =>
            match digestChunks skip now rest with
            | .error e => .error e
            | .ok cs => .ok (b ++ cs)

/-- The accumulated `message` string. -/
def digestStr (skip : Option String) (now : Int) (edges : List PullRequest) :
    Except Err String :=
  (digestChunks skip now edges).map strJoin

/-! ### The handler (handler.py lines 34-200) -/

/-- The three syntactically distinct normal returns of the Python function:
`return` (None, line 110), `return {}` (line 115), `return message`
(line 200). -/
inductive HandlerResult where
  | pyNone
  | emptyDict
  | str (s : String)
deriving DecidableEq

inductive LogEvent where
  | apiError (status : Nat)
  | invalidData
deriving DecidableEq

structure WebhookPost where
  url : String
  body : String
deriving DecidableEq

structure HandlerOutput where
  result : HandlerResult
  posts : List WebhookPost
  logs : List LogEvent
deriving DecidableEq

/-- `check_open_pull_requests` (handler.py lines 34-200) as a function of the
configuration, the GraphQL response and the current time.  The returned
`posts` are the webhook POSTs performed.  A `.error` value models an uncaught
Python exception. -/
def check_open_pull_requests (cfg : Config) (resp : GithubResponse) (now : Int) :
    Except Err HandlerOutput :=
  if resp.status ≠ 200 then
    .ok ⟨.pyNone, [], [.apiError resp.status]⟩
  else
    match resp.dataNode with
    | none => .ok ⟨.emptyDict, [], [.invalidData]⟩
    | some d =>
        match digestStr cfg.pr_skip_repositories now d.edges with
        | .error e => .error e
        | .ok message =>
            if message ≠ "" then
              .ok ⟨.str message,
                   [⟨cfg.slack_webhook_url,
                     "The following pull requests are OPEN:\n\n" ++ message⟩],
                   []⟩
            else .ok ⟨.str message, [], []⟩

/-- With no skip configuration, every pull request contributes its block. -/
def allBlocks (now : Int) : List PullRequest → Except Err (List String)
  | [] => .ok []
  | pr :: rest =>
      match prBlockChunks now pr with
      | .error e => .error e
      | .ok b =>
          match allBlocks now rest with
          | .error e => .error e
          | .ok cs => .ok (b ++ cs)

def c1cfg : Config := ⟨"tok", "org", "stok", "https://hooks.example/x", some "alpha,beta"⟩

def c1pr : PullRequest :=
  ⟨"https://u", "Title", 0, ⟨"ann"⟩, ⟨"alpha"⟩, ⟨0⟩, ⟨0, []⟩⟩

def c1resp : GithubResponse := ⟨200, some ⟨[c1pr]⟩⟩

def c2skip : PullRequest :=
  ⟨"https://s", "Skipped", 0, ⟨"bob"⟩, ⟨"alpha"⟩, ⟨0⟩, ⟨0, []⟩⟩

def c2other : PullRequest :=
  ⟨"https://o", "Kept", 0, ⟨"carol"⟩, ⟨"gamma"⟩, ⟨1⟩, ⟨0, []⟩⟩

def c8lastPage : SsmPage :=
  ⟨[⟨"/ns/env/slack_webhook_url", "w"⟩, ⟨"/ns/env/github_access_token", "g2"⟩],
   none⟩

def c8pages : List SsmPage :=
  [⟨[⟨"/ns/env/github_access_token", "g"⟩], some "tok1"⟩, c8lastPage]

def c9pr : PullRequest :=
  ⟨"https://p", "Sub", 0, ⟨"dina"⟩, ⟨"pha"⟩, ⟨0⟩, ⟨0, []⟩⟩

def c4pr : PullRequest :=
  ⟨"https://c4", "Fix", 0, ⟨"eve"⟩, ⟨"delta"⟩, ⟨2⟩,
   ⟨1, [⟨⟨"rex"⟩, "CHANGES_REQUESTED"⟩]⟩⟩

def c4chunks : List String :=
  [" Repository: delta.", " Pull: Fix.\n", " URL: https://c4.\n",
   warningChunk,
   " Author: eve. Created: 0 minutes ago\n",
   " Reviewers: 2 pending.\n",
   "\n"]

/-! ### C5: the Activity line -/

/-- The claim's list of non-zero activity entries, in order, pluralised. -/
def activityEntries (a : Activity) : List String :=
  (if a.approved ≠ 0 then
    [toString a.approved ++ " approval" ++ (if a.approved = 1 then "" else "s")]
   else [])
  ++ (if a.commented ≠ 0 then
    [toString a.commented ++ " comment" ++ (if a.commented = 1 then "" else "s")]
   else [])
  ++ (if a.dismissed ≠ 0 then
    [toString a.dismissed ++ " dismissed approval" ++
      (if a.dismissed = 1 then "" else "s")]
   else [])

/-- The claim's comma-joining of a list of entries: separators only between
entries, no leading, trailing or doubled comma. -/
def commaJoin : List String → String
  | [] => ""
  | [x] => x
  | x :: rest => x ++ ", " ++ commaJoin rest

def c5pr : PullRequest :=
  ⟨"https://c5", "Doc", 0, ⟨"finn"⟩, ⟨"epsilon"⟩, ⟨0⟩,
   ⟨1, [⟨⟨"gail"⟩, "COMMENTED"⟩]⟩⟩

def c5chunks : List String :=
  [" Repository: epsilon.", " Pull: Doc.\n", " URL: https://c5.\n",
   " Author: finn. Created: 0 minutes ago\n", " No pending reviewers.\n",
   " Activity: , 1 comment.\n", "\n"]

def c5wpr : PullRequest :=
  ⟨"https://w5", "Feat", 0, ⟨"hugo"⟩, ⟨"zeta"⟩, ⟨0⟩,
   ⟨3, [⟨⟨"ian"⟩, "APPROVED"⟩, ⟨⟨"joy"⟩, "APPROVED"⟩, ⟨⟨"kim"⟩, "APPROVED"⟩]⟩⟩

def c5wchunks : List String :=
  [" Repository: zeta.", " Pull: Feat.\n", " URL: https://w5.\n",
   " Author: hugo. Created: 0 minutes ago\n", " No pending reviewers.\n",
   " Activity: 3 approvals.\n", "\n"]

def c10cfg : Config := ⟨"t", "o", "s", "w", none⟩

def c10pr : PullRequest :=
  ⟨"https://x", "Bad", 0, ⟨"lou"⟩, ⟨"eta"⟩, ⟨0⟩, ⟨1, [⟨⟨"max"⟩, "FOO"⟩]⟩⟩

def c10resp : GithubResponse := ⟨200, some ⟨[c10pr]⟩⟩

/-! ### Theorems -/

/-! ### Small string helpers (used by the embedding and the proofs) -/

/-- `(a ++ b).data = a.data ++ b.data` for strings. -/
theorem data_append (a b : String) : (a ++ b).data = a.data ++ b.data := by
  cases a; cases b; rfl

theorem string_ext {a b : String} (h : a.data = b.data) : a = b := String.ext h

theorem strJoin_append (l1 l2 : List String) :
    strJoin (l1 ++ l2) = strJoin l1 ++ strJoin l2 := by
  induction l1 with
  | nil => apply string_ext; simp [strJoin, data_append]
  | cons a t ih =>
      apply string_ext
      simp [strJoin, data_append, ih]

theorem strJoin_eq_empty_iff (l : List String) :
    strJoin l = "" ↔ ∀ s ∈ l, s = "" := by
  induction l with
  | nil => simp [strJoin]
  | cons a t ih =>
      constructor
      · intro h
        have hd : (a ++ strJoin t).data = ("" : String).data := by rw [← h]; rfl
        rw [data_append] at hd
        have ha : a.data = [] := by
          have := List.append_eq_nil.mp hd
          exact this.1
        have ht : (strJoin t).data = [] := (List.append_eq_nil.mp hd).2
        intro s hs
        rw [List.mem_cons] at hs
        rcases hs with rfl | hs
        · exact string_ext ha
        · exact (ih.mp (string_ext ht)) s hs
      · intro h
        have ha : a = "" := h a (by simp)
        have ht : strJoin t = "" := ih.mpr (fun s hs => h s (by simp [hs]))
        rw [strJoin, ha, ht]
        rfl

theorem strIn_iff_infix (needle hay : String) :
    strIn needle hay = true ↔ needle.data <:+: hay.data := by
  rw [strIn, List.any_eq_true]
  constructor
  · rintro ⟨t, ht, hp⟩
    exact List.infix_iff_prefix_suffix.mpr
      ⟨t, List.isPrefixOf_iff_prefix.mp hp, (List.mem_tails _ _).mp ht⟩
  · intro h
    rcases List.infix_iff_prefix_suffix.mp h with ⟨t, hp, hs⟩
    exact ⟨t, (List.mem_tails _ _).mpr hs, List.isPrefixOf_iff_prefix.mpr hp⟩

/-! ### Helper lemmas about strings and chunks -/

theorem append_eq_empty_iff (a b : String) : a ++ b = "" ↔ a = "" ∧ b = "" := by
  constructor
  · intro h
    have hd : (a ++ b).data = ("" : String).data := by rw [h]
    rw [data_append] at hd
    have := List.append_eq_nil.mp hd
    exact ⟨string_ext this.1, string_ext this.2⟩
  · rintro ⟨rfl, rfl⟩
    rfl

theorem ne_of_get1 {a b : String} (h : a.data[1]? ≠ b.data[1]?) : a ≠ b :=
  fun he => h (by rw [he])

theorem data_append_cons2 {a : String} {c0 c1 : Char} {t : List Char}
    (h : a.data = c0 :: c1 :: t) (b : String) :
    (a ++ b).data = c0 :: c1 :: (t ++ b.data) := by
  rw [data_append, h]
  rfl

theorem get1_warning : warningChunk.data[1]? = some ':' := rfl

theorem ne_warning_of_get1 {s : String} (h : s.data[1]? ≠ some ':') :
    s ≠ warningChunk :=
  ne_of_get1 (by rw [get1_warning]; exact h)

theorem repo_chunk_ne_warning (x : String) :
    (" Repository: " ++ x ++ ".") ≠ warningChunk := by
  have h1 := data_append_cons2
    (rfl : (" Repository: ").data = ' ' :: 'R' :: "epository: ".data) x
  have h2 := data_append_cons2 h1 "."
  have h3 : (" Repository: " ++ x ++ ".").data[1]? = some 'R' := by rw [h2]; rfl
  exact ne_warning_of_get1 (by rw [h3]; decide)

theorem pull_chunk_ne_warning (x : String) :
    (" Pull: " ++ x ++ ".\n") ≠ warningChunk := by
  have h1 := data_append_cons2 (rfl : (" Pull: ").data = ' ' :: 'P' :: "ull: ".data) x
  have h2 := data_append_cons2 h1 ".\n"
  have h3 : (" Pull: " ++ x ++ ".\n").data[1]? = some 'P' := by rw [h2]; rfl
  exact ne_warning_of_get1 (by rw [h3]; decide)

theorem url_chunk_ne_warning (x : String) :
    (" URL: " ++ x ++ ".\n") ≠ warningChunk := by
  have h1 := data_append_cons2 (rfl : (" URL: ").data = ' ' :: 'U' :: "RL: ".data) x
  have h2 := data_append_cons2 h1 ".\n"
  have h3 : (" URL: " ++ x ++ ".\n").data[1]? = some 'U' := by rw [h2]; rfl
  exact ne_warning_of_get1 (by rw [h3]; decide)

theorem author_chunk_ne_warning (x y : String) :
    (" Author: " ++ x ++ ". Created: " ++ y ++ "\n") ≠ warningChunk := by
  have h1 := data_append_cons2 (rfl : (" Author: ").data = ' ' :: 'A' :: "uthor: ".data) x
  have h2 := data_append_cons2 h1 ". Created: "
  have h3 := data_append_cons2 h2 y
  have h4 := data_append_cons2 h3 "\n"
  have h5 : (" Author: " ++ x ++ ". Created: " ++ y ++ "\n").data[1]? = some 'A' := by
    rw [h4]; rfl
  exact ne_warning_of_get1 (by rw [h5]; decide)

theorem reviewers_chunk_ne_warning (x : String) :
    (" Reviewers: " ++ x ++ " pending.\n") ≠ warningChunk := by
  have h1 := data_append_cons2 (rfl : (" Reviewers: ").data = ' ' :: 'R' :: "eviewers: ".data) x
  have h2 := data_append_cons2 h1 " pending.\n"
  have h3 : (" Reviewers: " ++ x ++ " pending.\n").data[1]? = some 'R' := by rw [h2]; rfl
  exact ne_warning_of_get1 (by rw [h3]; decide)

theorem nopending_chunk_ne_warning : (" No pending reviewers.\n" : String) ≠ warningChunk := by
  decide

theorem activity_chunk_ne_warning (x : String) :
    (" Activity: " ++ x ++ ".\n") ≠ warningChunk := by
  have h1 := data_append_cons2 (rfl : (" Activity: ").data = ' ' :: 'A' :: "ctivity: ".data) x
  have h2 := data_append_cons2 h1 ".\n"
  have h3 : (" Activity: " ++ x ++ ".\n").data[1]? = some 'A' := by rw [h2]; rfl
  exact ne_warning_of_get1 (by rw [h3]; decide)

theorem newline_chunk_ne_warning : ("\n" : String) ≠ warningChunk := by decide

/-! ### Helper lemmas about the digest -/

theorem newline_mem_prBlock {now : Int} {pr : PullRequest} {cs : List String}
    (h : prBlockChunks now pr = .ok cs) : "\n" ∈ cs := by
  cases hA : actWarn pr with
  | error e => simp [prBlockChunks, hA] at h
  | ok p =>
      obtain ⟨a, warn⟩ := p
      simp only [prBlockChunks, hA] at h
      cases h
      simp [List.mem_append]

theorem strJoin_prBlock_ne_empty {now : Int} {pr : PullRequest} {cs : List String}
    (h : prBlockChunks now pr = .ok cs) : strJoin cs ≠ "" := by
  intro he
  have := (strJoin_eq_empty_iff cs).mp he "\n" (newline_mem_prBlock h)
  exact absurd this (by decide)

theorem digestChunks_empty_iff (skip : Option String) (now : Int) :
    ∀ (l : List PullRequest) (cs : List String),
      digestChunks skip now l = .ok cs →
      (strJoin cs = "" ↔ ∀ pr ∈ l, skippedB skip pr.repository.name = true) := by
  intro l
  induction l with
  | nil =>
      intro cs h
      simp only [digestChunks] at h
      cases h
      simp [strJoin]
  | cons pr rest ih =>
      intro cs h
      by_cases hsk : skippedB skip pr.repository.name = true
      · simp only [digestChunks, hsk, if_true] at h
        rw [ih cs h]
        simp [hsk]
      · simp only [digestChunks, hsk, if_false] at h
        cases hb : prBlockChunks now pr with
        | error e => rw [hb] at h; cases h
        | ok b =>
            rw [hb] at h
            cases hr : digestChunks skip now rest with
            | error e => rw [hr] at h; cases h
            | ok cs2 =>
                rw [hr] at h
                cases h
                rw [strJoin_append]
                constructor
                · intro he
                  exact absurd ((append_eq_empty_iff _ _).mp he).1
                    (strJoin_prBlock_ne_empty hb)
                · intro hall
                  exact absurd (hall pr (by simp)) hsk

/-- Dropping a skipped pull request anywhere in the list leaves the chunk
sequence unchanged (the `continue` at handler.py line 125). -/
theorem digestChunks_drop_skipped (skip : Option String) (now : Int)
    (pr : PullRequest) (hskip : skippedB skip pr.repository.name = true) :
    ∀ (l1 l2 : List PullRequest),
      digestChunks skip now (l1 ++ pr :: l2) = digestChunks skip now (l1 ++ l2) := by
  intro l1 l2
  induction l1 with
  | nil => simp [digestChunks, hskip]
  | cons a t ih =>
      simp only [List.cons_append, digestChunks]
      simp only [List.append_eq]
      rw [ih]

theorem digestChunks_none_eq_allBlocks (now : Int) :
    ∀ l : List PullRequest, digestChunks none now l = allBlocks now l := by
  intro l
  induction l with
  | nil => rfl
  | cons pr rest ih =>
      simp only [digestChunks, allBlocks, skippedB]
      rw [ih]
      simp

/-! ### Helper lemmas about the review tally -/

theorem tally_count (l : List ReviewNode) :
    ∀ (acc a : Activity), tally acc l = .ok a →
      a.changesRequested =
        acc.changesRequested + l.countP (fun r => r.state == "CHANGES_REQUESTED") := by
  induction l with
  | nil =>
      intro acc a h
      simp only [tally] at h
      cases h
      simp
  | cons r rest ih =>
      intro acc a h
      simp only [tally] at h
      cases hb : bump acc r.state with
      | error e => rw [hb] at h; cases h
      | ok acc2 =>
          rw [hb] at h
          have hcr := ih acc2 a h
          unfold bump at hb
          rw [List.countP_cons]
          split_ifs at hb with h1 h2 h3 h4 h5
          all_goals cases hb
          all_goals simp_all [beq_iff_eq]
          all_goals omega

theorem tally_states (l : List ReviewNode) :
    ∀ (acc a : Activity), tally acc l = .ok a →
      ∀ r ∈ l, r.state ∈ fiveStates := by
  induction l with
  | nil => intro acc a _ r hr; cases hr
  | cons q rest ih =>
      intro acc a h r hr
      simp only [tally] at h
      cases hb : bump acc q.state with
      | error e => rw [hb] at h; cases h
      | ok acc2 =>
          rw [hb] at h
          rw [List.mem_cons] at hr
          rcases hr with rfl | hr
          · unfold bump at hb
            split_ifs at hb with h1 h2 h3 h4 h5
            all_goals simp_all [fiveStates]
          · exact ih acc2 a h r hr

theorem tally_count_zero (l : List ReviewNode) (a : Activity)
    (h : tally zeroActivity l = .ok a) :
    a.changesRequested = l.countP (fun r => r.state == "CHANGES_REQUESTED") := by
  have := tally_count l zeroActivity a h
  simpa [zeroActivity] using this

theorem actWarn_ok_tally {pr : PullRequest} {a : Activity} {warn : List String}
    (htc : 0 < pr.reviews.totalCount) (h : actWarn pr = .ok (a, warn)) :
    tally zeroActivity pr.reviews.edges = .ok a ∧
      warn = if a.changesRequested ≠ 0 then [warningChunk] else [] := by
  unfold actWarn at h
  rw [if_pos htc] at h
  cases ht : tally zeroActivity pr.reviews.edges with
  | error e => rw [ht] at h; cases h
  | ok a2 =>
      rw [ht] at h
      cases h
      exact ⟨rfl, rfl⟩

theorem prBlock_ok_actWarn {now : Int} {pr : PullRequest} {cs : List String}
    (h : prBlockChunks now pr = .ok cs) :
    ∃ a warn, actWarn pr = .ok (a, warn) := by
  cases hA : actWarn pr with
  | error e => simp [prBlockChunks, hA] at h
  | ok p =>
      obtain ⟨a, w⟩ := p
      exact ⟨a, w, rfl⟩

theorem digestChunks_ok_states (skip : Option String) (now : Int) :
    ∀ (l : List PullRequest) (cs : List String),
      digestChunks skip now l = .ok cs →
      ∀ pr ∈ l, skippedB skip pr.repository.name = false →
        0 < pr.reviews.totalCount →
        ∀ r ∈ pr.reviews.edges, r.state ∈ fiveStates := by
  intro l
  induction l with
  | nil => intro cs _ pr hpr; cases hpr
  | cons q rest ih =>
      intro cs h pr hpr hns htc r hr
      rw [List.mem_cons] at hpr
      by_cases hsk : skippedB skip q.repository.name = true
      · simp only [digestChunks, hsk, if_true] at h
        rcases hpr with rfl | hpr
        · rw [hns] at hsk; cases hsk
        · exact ih cs h pr hpr hns htc r hr
      · simp only [digestChunks, hsk, if_false] at h
        cases hb : prBlockChunks now q with
        | error e => rw [hb] at h; cases h
        | ok b =>
            rw [hb] at h
            cases hrest : digestChunks skip now rest with
            | error e => rw [hrest] at h; cases h
            | ok cs2 =>
                rcases hpr with rfl | hpr
                · obtain ⟨a, warn, hA⟩ := prBlock_ok_actWarn hb
                  obtain ⟨ht, _⟩ := actWarn_ok_tally htc hA
                  exact tally_states _ _ _ ht r hr
                · exact ih cs2 hrest pr hpr hns htc r hr

/-! ### Helper lemmas about the configuration loader -/

theorem storeParams_eq (ps : List SsmParam) :
    ∀ cfg : List (String × String),
      (∀ p ∈ ps, (keyOfName p.name).isSome) →
      storeParams cfg ps = some (pageUnion cfg ps) := by
  induction ps with
  | nil => intro cfg _; rfl
  | cons p rest ih =>
      intro cfg h
      have hp : (keyOfName p.name).isSome := h p (by simp)
      cases hk : keyOfName p.name with
      | none => rw [hk] at hp; cases hp
      | some k =>
          simp only [storeParams, hk]
          have : pageUnion cfg (p :: rest) =
              pageUnion (insertParam cfg k p.value) rest := by
            simp [pageUnion, hk]
          rw [this]
          exact ih _ (fun q hq => h q (by simp [hq]))

theorem loadLoop_eq (pages : List SsmPage) :
    ∀ cfg : List (String × String),
      pages ≠ [] →
      (∀ pg ∈ pages.dropLast, pg.nextToken.isSome) →
      (∀ pg, pages.getLast? = some pg → pg.nextToken = none) →
      (∀ pg ∈ pages, ∀ p ∈ pg.parameters, (keyOfName p.name).isSome) →
      loadLoop cfg pages =
        some (pages.foldl (fun c pg => pageUnion c pg.parameters) cfg) := by
  induction pages with
  | nil => intro _ hne _ _ _; exact absurd rfl hne
  | cons pg rest ih =>
      intro cfg _ htok hlast hkeys
      have hstore := storeParams_eq pg.parameters cfg (hkeys pg (by simp))
      simp only [loadLoop, hstore]
      cases rest with
      | nil =>
          have : pg.nextToken = none := hlast pg (by simp)
          rw [this]
          rfl
      | cons q rest2 =>
          have hpg : pg.nextToken.isSome := htok pg (by simp [List.dropLast])
          cases hX : pg.nextToken with
          | none => rw [hX] at hpg; cases hpg
          | some t =>
              have hrec := ih (pageUnion cfg pg.parameters) (by simp)
                (fun x hx => htok x (by
                  have : (pg :: q :: rest2).dropLast = pg :: (q :: rest2).dropLast := rfl
                  rw [this]
                  exact List.mem_cons_of_mem _ hx))
                (fun x hx => hlast x (by
                  rw [List.getLast?_cons_cons]
                  exact hx))
                (fun x hx => hkeys x (List.mem_cons_of_mem _ hx))
              rw [hrec]
              rfl

/-! ### Claims -/

/-- C1: for every GraphQL result, configuration and clock value, the digest
string returned by `check_open_pull_requests` is empty exactly when every
pull request of the result is skipped — i.e. there are zero qualifying
(open, non-skipped) pull requests; the query only returns open pull
requests, so openness is implicit in membership of the result.  When the
digest is empty, no POST to the webhook URL is performed. -/
theorem empty_digest_iff_no_qualifying_and_no_post
    (cfg : Config) (resp : GithubResponse) (now : Int) (d : SearchData)
    (o : HandlerOutput)
    (h200 : resp.status = 200) (hd : resp.dataNode = some d)
    (hok : check_open_pull_requests cfg resp now = .ok o) :
    ((o.result = .str "") ↔
      ∀ pr ∈ d.edges, skippedB cfg.pr_skip_repositories pr.repository.name = true)
    ∧ (o.result = .str "" → o.posts = []) := by
  cases hdig : digestChunks cfg.pr_skip_repositories now d.edges with
  | error e =>
      simp [check_open_pull_requests, digestStr, h200, hd, hdig, Except.map] at hok
  | ok cs =>
      simp only [check_open_pull_requests, digestStr, h200, hd, hdig,
        Except.map, ne_eq] at hok
      rw [if_neg (by simp)] at hok
      by_cases hne : strJoin cs = ""
      · rw [if_neg (fun hc => hc hne)] at hok
        have ho := Except.ok.inj hok
        rw [← ho]
        refine ⟨?_, fun _ => rfl⟩
        constructor
        · intro _
          exact (digestChunks_empty_iff _ _ _ _ hdig).mp hne
        · intro _
          rw [hne]
      · rw [if_pos hne] at hok
        have ho := Except.ok.inj hok
        rw [← ho]
        constructor
        · constructor
          · intro hstr
            exact absurd (HandlerResult.str.inj hstr) hne
          · intro hall
            exact absurd ((digestChunks_empty_iff _ _ _ _ hdig).mpr hall) hne
        · intro hstr
          exact absurd (HandlerResult.str.inj hstr) hne

theorem empty_digest_iff_no_qualifying_and_no_post_witness :
    (((⟨HandlerResult.str "", [], []⟩ : HandlerOutput).result = .str "") ↔
      ∀ pr ∈ (⟨[c1pr]⟩ : SearchData).edges,
        skippedB c1cfg.pr_skip_repositories pr.repository.name = true)
    ∧ ((⟨HandlerResult.str "", [], []⟩ : HandlerOutput).result = .str "" →
        (⟨HandlerResult.str "", [], []⟩ : HandlerOutput).posts = []) :=
  empty_digest_iff_no_qualifying_and_no_post c1cfg c1resp 0 ⟨[c1pr]⟩
    ⟨HandlerResult.str "", [], []⟩ rfl rfl (by decide)

/-- C2: a pull request whose repository name is caught by the configured
skip test contributes nothing to the digest: the digest of any result
containing it equals the digest of the same result with it removed. -/
theorem skipped_pr_contributes_nothing (skip : Option String) (now : Int)
    (pr : PullRequest) (l1 l2 : List PullRequest)
    (hskip : skippedB skip pr.repository.name = true) :
    digestStr skip now (l1 ++ pr :: l2) = digestStr skip now (l1 ++ l2) := by
  unfold digestStr
  rw [digestChunks_drop_skipped skip now pr hskip l1 l2]

theorem skipped_pr_contributes_nothing_witness :
    digestStr (some "alpha,beta") 0 [c2other, c2skip] =
      digestStr (some "alpha,beta") 0 [c2other] :=
  skipped_pr_contributes_nothing (some "alpha,beta") 0 c2skip [c2other] []
    (by decide)

/-- C6 (amended): on a 200 response whose payload lacks the top-level data
node, `check_open_pull_requests` does not fail and performs no webhook POST,
but it returns the empty dict `{}` (a falsy empty value), not the empty
string. -/
theorem missing_data_returns_empty_dict (cfg : Config) (resp : GithubResponse)
    (now : Int) (h200 : resp.status = 200) (hd : resp.dataNode = none) :
    check_open_pull_requests cfg resp now =
      .ok ⟨.emptyDict, [], [.invalidData]⟩ := by
  simp [check_open_pull_requests, h200, hd]

/-- C6 counterexample: the claim asserts the returned value is the digest
string (the empty string); at this concrete input the function instead
returns the empty dict, which is not `HandlerResult.str ""`. -/
theorem missing_data_counterexample :
    check_open_pull_requests ⟨"t", "o", "s", "w", none⟩ ⟨200, none⟩ 0 =
      .ok ⟨.emptyDict, [], [.invalidData]⟩ ∧
    (HandlerResult.emptyDict ≠ HandlerResult.str "") := by
  exact ⟨by decide, by decide⟩

theorem missing_data_returns_empty_dict_witness :
    check_open_pull_requests ⟨"tok", "org", "st", "wh", some "x"⟩ ⟨200, none⟩ 5 =
      .ok ⟨.emptyDict, [], [.invalidData]⟩ :=
  missing_data_returns_empty_dict _ _ _ rfl rfl

/-- C7: on a non-200 HTTP status the handler logs the failure and returns
`None` (Python's bare `return`), performing no webhook POST and producing no
digest, without raising. -/
theorem non_200_logs_and_returns_none (cfg : Config) (resp : GithubResponse)
    (now : Int) (h : resp.status ≠ 200) :
    check_open_pull_requests cfg resp now =
      .ok ⟨.pyNone, [], [.apiError resp.status]⟩ := by
  unfold check_open_pull_requests
  rw [if_pos h]

theorem non_200_logs_and_returns_none_witness :
    check_open_pull_requests ⟨"tok", "org", "st", "wh", none⟩ ⟨500, none⟩ 0 =
      .ok ⟨.pyNone, [], [.apiError 500]⟩ :=
  non_200_logs_and_returns_none _ _ _ (by decide)

/-- C8: when every page except the last carries a continuation token and the
last page carries none (and every parameter name has a fourth slash-delimited
segment, as all names under `/<namespace>/<env>/` do), `load_params` follows
the tokens to the end and returns the union of all pages' key-value pairs,
each key being the fourth slash-delimited segment (the leaf name), with no
page skipped. -/
theorem load_params_follows_pagination (pages : List SsmPage)
    (hne : pages ≠ [])
    (htok : ∀ pg ∈ pages.dropLast, pg.nextToken.isSome)
    (hlast : ∀ pg, pages.getLast? = some pg → pg.nextToken = none)
    (hkeys : ∀ pg ∈ pages, ∀ p ∈ pg.parameters, (keyOfName p.name).isSome) :
    load_params pages = some (allPagesUnion pages) :=
  loadLoop_eq pages [] hne htok hlast hkeys

theorem load_params_follows_pagination_witness :
    load_params c8pages = some (allPagesUnion c8pages) :=
  load_params_follows_pagination c8pages (by decide) (by decide)
    (by
      intro pg h
      have hx : c8pages.getLast? = some c8lastPage := rfl
      rw [hx] at h
      have := Option.some.inj h
      rw [← this]
      rfl)
    (by decide)

/-- C9: when `pr_skip_repositories` is present it is a single string and the
skip test is Python substring containment on that string (any pull request
whose repository name occurs anywhere inside the configured value is
excluded, not only exact members of a set); when the key is absent nothing
is skipped and every pull request contributes its block. -/
theorem skip_test_is_substring_containment :
    (∀ s name : String, skippedB (some s) name = true ↔ name.data <:+: s.data)
    ∧ (∀ (s : String) (now : Int) (pr : PullRequest) (l1 l2 : List PullRequest),
        strIn pr.repository.name s = true →
        digestStr (some s) now (l1 ++ pr :: l2) = digestStr (some s) now (l1 ++ l2))
    ∧ (∀ name : String, skippedB none name = false)
    ∧ (∀ (now : Int) (l : List PullRequest),
        digestChunks none now l = allBlocks now l) := by
  refine ⟨fun s name => strIn_iff_infix name s,
    fun s now pr l1 l2 hin => ?_,
    fun name => rfl,
    fun now l => digestChunks_none_eq_allBlocks now l⟩
  unfold digestStr
  rw [digestChunks_drop_skipped (some s) now pr hin l1 l2]

theorem skip_test_is_substring_containment_witness :
    digestStr (some "alpha,beta") 0 [c9pr] = digestStr (some "alpha,beta") 0 [] :=
  skip_test_is_substring_containment.2.1 "alpha,beta" 0 c9pr [] [] (by decide)

/-- C3: the relative-time text renders exactly 90 minutes as "1 hour ago",
45 minutes as "45 minutes ago", 1 day 0 hours as "1 day ago", includes the
warning marker at 4 days and the alert marker at 7 days, and pluralises the
day/hour/minute word correctly for N=1 vs N≠1 (shown by full
characterisations of the three buckets). -/
theorem relative_time_rendering :
    timeSinceCreated 5400 = "1 hour ago" ∧
    timeSinceCreated 2700 = "45 minutes ago" ∧
    timeSinceCreated 86400 = "1 day ago" ∧
    strIn ":warning:" (timeSinceCreated (4 * 86400)) = true ∧
    strIn ":fire:" (timeSinceCreated (7 * 86400)) = true ∧
    (∀ n : Nat, 0 < n →
      timeSinceCreated ((n : Int) * 86400) =
        toString (n : Int) ++ " day" ++ (if (n : Int) = 1 then "" else "s") ++ " ago"
          ++ (if 3 < (n : Int) ∧ (n : Int) < 6 then " :warning:"
              else if 6 ≤ (n : Int) then " :fire:" else "")) ∧
    (∀ n : Nat, 0 < n → n < 24 →
      timeSinceCreated ((n : Int) * 3600) =
        toString n ++ " hour" ++ (if n = 1 then "" else "s") ++ " ago") ∧
    (∀ n : Nat, n < 60 →
      timeSinceCreated ((n : Int) * 60) =
        toString n ++ " minute" ++ (if n = 1 then "" else "s") ++ " ago") := by
  refine ⟨by decide, by decide, by decide, by decide, by decide, ?_, ?_, ?_⟩
  · intro n hn
    have hn0 : (n : Int) ≠ 0 := by exact_mod_cast Nat.pos_iff_ne_zero.mp hn
    have hdays : ((n : Int) * 86400) / 86400 = (n : Int) :=
      Int.mul_ediv_cancel _ (by norm_num)
    simp only [timeSinceCreated, hdays]
    rw [if_pos hn0]
    by_cases h1 : 3 < (n : Int) ∧ (n : Int) < 6
    · rw [if_pos h1, if_pos h1]
    · rw [if_neg h1, if_neg h1]
      by_cases h2 : 6 ≤ (n : Int)
      · rw [if_pos h2, if_pos h2]
      · rw [if_neg h2, if_neg h2, String.append_empty]
  · intro n hn h24
    have hlt : (n : Int) * 3600 < 86400 := by omega
    have hdays : ((n : Int) * 3600) / 86400 = 0 :=
      Int.ediv_eq_zero_of_lt (by positivity) hlt
    have hmod : ((n : Int) * 3600) % 86400 = (n : Int) * 3600 :=
      Int.emod_eq_of_lt (by positivity) hlt
    have htn : ((n : Int) * 3600).toNat = n * 3600 := by omega
    have hdh : n * 3600 / 3600 = n := Nat.mul_div_cancel n (by norm_num)
    simp only [timeSinceCreated, hdays, hmod, htn, hdh]
    rw [if_neg (fun hc => hc rfl), if_pos (Nat.pos_iff_ne_zero.mp hn)]
  · intro n h60
    have hlt : (n : Int) * 60 < 86400 := by omega
    have hdays : ((n : Int) * 60) / 86400 = 0 :=
      Int.ediv_eq_zero_of_lt (by positivity) hlt
    have hmod : ((n : Int) * 60) % 86400 = (n : Int) * 60 :=
      Int.emod_eq_of_lt (by positivity) hlt
    have htn : ((n : Int) * 60).toNat = n * 60 := by omega
    have hdh : n * 60 / 3600 = 0 := Nat.div_eq_of_lt (by omega)
    have hmin : n * 60 / 60 = n := Nat.mul_div_cancel n (by norm_num)
    simp only [timeSinceCreated, hdays, hmod, htn, hdh, hmin]
    rw [if_neg (fun hc => hc rfl), if_neg (fun hc => hc rfl)]

theorem relative_time_rendering_witness :
    timeSinceCreated (((2 : Nat) : Int) * 3600) =
      toString (2 : Nat) ++ " hour" ++ (if (2 : Nat) = 1 then "" else "s") ++ " ago" :=
  relative_time_rendering.2.2.2.2.2.2.1 2 (by decide) (by decide)

/-- C4: for a pull request whose returned review list is consistent with its
`totalCount` (the list is a page of at most `totalCount` reviews), the digest
block contains the fixed changes-requested warning line if and only if the
number of returned reviews in state CHANGES_REQUESTED is positive. -/
theorem changes_requested_warning_iff (now : Int) (pr : PullRequest)
    (cs : List String)
    (hcount : pr.reviews.edges.length ≤ pr.reviews.totalCount)
    (hok : prBlockChunks now pr = .ok cs) :
    (warningChunk ∈ cs ↔
      0 < pr.reviews.edges.countP (fun r => r.state == "CHANGES_REQUESTED")) := by
  cases hA : actWarn pr with
  | error e => simp [prBlockChunks, hA] at hok
  | ok p =>
      obtain ⟨a, warn⟩ := p
      simp only [prBlockChunks, hA] at hok
      cases hok
      have key : (warningChunk ∈ warn ↔
          0 < pr.reviews.edges.countP (fun r => r.state == "CHANGES_REQUESTED")) := by
        by_cases htc : 0 < pr.reviews.totalCount
        · obtain ⟨ht, hw⟩ := actWarn_ok_tally htc hA
          have hcr := tally_count_zero _ _ ht
          rw [hw]
          by_cases hz : a.changesRequested = 0
          · rw [if_neg (fun hc => hc hz)]
            constructor
            · intro h
              exact absurd h (List.not_mem_nil _)
            · intro h
              rw [← hcr, hz] at h
              exact absurd h (lt_irrefl 0)
          · rw [if_pos hz]
            constructor
            · intro _
              rw [← hcr]
              exact Nat.pos_of_ne_zero hz
            · intro _
              exact List.mem_singleton.mpr rfl
        · have hedges : pr.reviews.edges = [] :=
            List.eq_nil_of_length_eq_zero (by omega)
          unfold actWarn at hA
          rw [if_neg htc] at hA
          have hw : warn = [] := (Prod.mk.inj (Except.ok.inj hA)).2.symm
          rw [hw, hedges]
          simp
      have hn1 : warningChunk ≠ " Repository: " ++ pr.repository.name ++ "." :=
        Ne.symm (repo_chunk_ne_warning _)
      have hn2 : warningChunk ≠ " Pull: " ++ pr.title ++ ".\n" :=
        Ne.symm (pull_chunk_ne_warning _)
      have hn3 : warningChunk ≠ " URL: " ++ pr.url ++ ".\n" :=
        Ne.symm (url_chunk_ne_warning _)
      have hn4 : warningChunk ≠
          " Author: " ++ pr.author.login ++ ". Created: " ++
            timeSinceCreated (now - pr.createdAt) ++ "\n" :=
        Ne.symm (author_chunk_ne_warning _ _)
      have hn5 : warningChunk ≠
          " Reviewers: " ++ toString pr.reviewRequests.totalCount ++ " pending.\n" :=
        Ne.symm (reviewers_chunk_ne_warning _)
      have hn6 : warningChunk ≠ " No pending reviewers.\n" :=
        Ne.symm nopending_chunk_ne_warning
      have hn7 : warningChunk ≠ " Activity: " ++ activityMsg a ++ ".\n" :=
        Ne.symm (activity_chunk_ne_warning _)
      have hn8 : warningChunk ≠ "\n" := Ne.symm newline_chunk_ne_warning
      split_ifs with hc1 hc2 <;>
        simpa [List.mem_append, List.mem_cons, hn1, hn2, hn3, hn4, hn5, hn6,
          hn7, hn8] using key

theorem changes_requested_warning_iff_witness : warningChunk ∈ c4chunks :=
  (changes_requested_warning_iff 0 c4pr c4chunks (by decide) (by decide)).mpr
    (by decide)

/-- C5 counterexample: for a pull request with zero approvals and one
comment, the code emits the Activity line " Activity: , 1 comment.\n" — with
a leading comma — and not the comma-joined form " Activity: 1 comment.\n"
that the claim requires. -/
theorem activity_line_leading_comma_counterexample :
    prBlockChunks 0 c5pr = .ok c5chunks ∧
    " Activity: , 1 comment.\n" ∈ c5chunks ∧
    commaJoin (activityEntries ⟨0, 0, 1, 0, 0⟩) = "1 comment" ∧
    (" Activity: " ++ commaJoin (activityEntries ⟨0, 0, 1, 0, 0⟩) ++ ".\n") ∉ c5chunks := by
  exact ⟨by decide, by decide, by decide, by decide⟩

theorem str_eq_empty_iff (s : String) : s = "" ↔ s.data = [] :=
  ⟨fun h => by rw [h], fun h => string_ext h⟩

theorem getLast?_cons_append_cons {α : Type} (a : α) (l1 : List α) (b : α)
    (l2 : List α) : (a :: (l1 ++ b :: l2)).getLast? = (b :: l2).getLast? := by
  rw [← List.cons_append]
  exact List.getLast?_append_cons _ _ _

theorem dropLast_cons_append_cons {α : Type} (a : α) (l1 : List α) (b : α)
    (l2 : List α) :
    (a :: (l1 ++ b :: l2)).dropLast = a :: (l1 ++ (b :: l2).dropLast) := by
  induction l1 generalizing a with
  | nil => rfl
  | cons x t ih =>
      show (a :: (x :: (t ++ b :: l2))).dropLast = a :: (x :: (t ++ (b :: l2).dropLast))
      have hx := ih x
      show a :: (x :: (t ++ b :: l2)).dropLast = a :: (x :: (t ++ (b :: l2).dropLast))
      rw [hx]

/-- C5 (amended): the digest block ends with "\n" preceded — when any of the
approvals / comments / dismissed-approvals counts is non-zero — by a trailing
Activity line whose content is the comma-joined list of the non-zero counts
(in that order, each pluralised correctly) prefixed by a stray leading ", "
exactly when the approvals count is zero while another count is non-zero;
when all three counts are zero the Activity line is absent and the slot
before the final "\n" holds the reviewer-pending line instead. -/
theorem activity_line_composition :
    (∀ a : Activity,
      activityMsg a =
        (if a.approved = 0 ∧ (a.commented ≠ 0 ∨ a.dismissed ≠ 0) then ", " else "")
          ++ commaJoin (activityEntries a)) ∧
    (∀ a : Activity,
      (activityMsg a = "" ↔ a.approved = 0 ∧ a.commented = 0 ∧ a.dismissed = 0)) ∧
    (∀ (now : Int) (pr : PullRequest) (a : Activity) (warn cs : List String),
      actWarn pr = .ok (a, warn) → prBlockChunks now pr = .ok cs →
      cs.getLast? = some "\n" ∧
      cs.dropLast.getLast? = some
        (if activityMsg a ≠ "" then " Activity: " ++ activityMsg a ++ ".\n"
         else if pr.reviewRequests.totalCount ≠ 0 then
           " Reviewers: " ++ toString pr.reviewRequests.totalCount ++ " pending.\n"
         else " No pending reviewers.\n")) := by
  refine ⟨?_, ?_, ?_⟩
  · intro a
    by_cases ha : a.approved = 0 <;> by_cases hc : a.commented = 0 <;>
      by_cases hd : a.dismissed = 0
    all_goals refine string_ext ?_
    all_goals simp [activityMsg, activityEntries, commaJoin, ha, hc, hd, data_append]
  · intro a
    rw [str_eq_empty_iff]
    have e0 : ("" : String).data = [] := rfl
    have e1 : (" approval" : String).data ≠ [] := by decide
    have e2 : (", " : String).data ≠ [] := by decide
    by_cases ha : a.approved = 0 <;> by_cases hc : a.commented = 0 <;>
      by_cases hd : a.dismissed = 0
    all_goals
      simp [activityMsg, ha, hc, hd, data_append, List.append_eq_nil, e0, e1, e2]
  · intro now pr a warn cs hA hok
    simp only [prBlockChunks, hA] at hok
    cases hok
    by_cases hAct : activityMsg a = ""
    · by_cases hR : pr.reviewRequests.totalCount = 0
      all_goals constructor
      all_goals simp [hAct, hR, List.getLast?_cons_cons, getLast?_cons_append_cons,
        dropLast_cons_append_cons, List.dropLast]
    · constructor
      all_goals simp [hAct, List.getLast?_cons_cons, getLast?_cons_append_cons,
        dropLast_cons_append_cons, List.dropLast]

theorem activity_line_composition_witness :
    c5wchunks.getLast? = some "\n" ∧
    c5wchunks.dropLast.getLast? = some
      (if activityMsg ⟨3, 0, 0, 0, 0⟩ ≠ "" then
        " Activity: " ++ activityMsg ⟨3, 0, 0, 0, 0⟩ ++ ".\n"
       else if c5wpr.reviewRequests.totalCount ≠ 0 then
        " Reviewers: " ++ toString c5wpr.reviewRequests.totalCount ++ " pending.\n"
       else " No pending reviewers.\n") :=
  activity_line_composition.2.2 0 c5wpr ⟨3, 0, 0, 0, 0⟩ [] c5wchunks
    (by decide) (by decide)

/-- C10: the review tally indexes the fixed five-key dictionary without a
guard, so for any non-skipped pull request of the result with
`reviews.totalCount > 0` containing a returned review whose state is outside
the five known values, `check_open_pull_requests` raises `KeyError` instead
of producing a digest.  (A skipped pull request is `continue`d before the
tally, so non-skippedness is part of the precondition.) -/
theorem unknown_review_state_raises_keyerror
    (cfg : Config) (resp : GithubResponse) (now : Int) (d : SearchData)
    (pr : PullRequest) (r : ReviewNode)
    (h200 : resp.status = 200) (hd : resp.dataNode = some d)
    (hmem : pr ∈ d.edges)
    (hns : skippedB cfg.pr_skip_repositories pr.repository.name = false)
    (htc : 0 < pr.reviews.totalCount)
    (hr : r ∈ pr.reviews.edges) (hbad : r.state ∉ fiveStates) :
    ∃ k, check_open_pull_requests cfg resp now = .error (.keyError k) := by
  cases hdig : digestChunks cfg.pr_skip_repositories now d.edges with
  | ok cs =>
      exact absurd (digestChunks_ok_states _ _ _ _ hdig pr hmem hns htc r hr) hbad
  | error e =>
      cases e with
      | keyError k =>
          refine ⟨k, ?_⟩
          simp [check_open_pull_requests, h200, hd, digestStr, hdig, Except.map]

theorem unknown_review_state_raises_keyerror_witness :
    check_open_pull_requests c10cfg c10resp 0 = .error (.keyError "FOO") := by
  obtain ⟨k, hk⟩ := unknown_review_state_raises_keyerror c10cfg c10resp 0
    ⟨[c10pr]⟩ c10pr ⟨⟨"max"⟩, "FOO"⟩ rfl rfl (by decide) (by decide) (by decide)
    (by decide) (by decide)
  have h2 : check_open_pull_requests c10cfg c10resp 0 =
      Except.error (Err.keyError "FOO") := by decide
  exact h2

end PRNotifier
